import Mathlib

set_option autoImplicit false

/-
  Shallow embedding of the ruleset reconciliation engine of
  kuhlman-labs/repo-ruleset-bot.

  Each definition is translated from the Go source, with the file and line
  range named in its doc comment.  The platform client, the file system and
  the logger are external collaborators: their outcomes are passed in as an
  explicit environment, and the write calls the engine issues are collected
  in a list so that theorems can talk about them.
-/

namespace RepoRulesetBot

/-- Embeds github.RepositoryRule as used by src/reporulesetbot/handler.go:
a rule carries a type tag and an uninterpreted type-specific payload. -/
structure RepositoryRule where
  type : String
  parameters : Option String
deriving DecidableEq, Repr

/-- Embeds github.RulesetConditions as a structural value: compareConditions
in src/reporulesetbot/config.go:275-282 only ever applies reflect.DeepEqual
to it, so any structure with decidable (deep) equality is a faithful model
of the fields it carries. -/
structure RulesetConditions where
  refNameInclude : List String
  refNameExclude : List String
  repositoryNameInclude : List String
  repositoryNameExclude : List String
deriving DecidableEq, Repr

/-- Embeds github.BypassActor; actorId models GetActorID, which yields 0
when the underlying pointer field is nil. -/
structure BypassActor where
  actorId : Int
  actorType : String
deriving DecidableEq, Repr

/-- Embeds github.Ruleset restricted to the fields the engine reads
(src/reporulesetbot/handler.go and src/reporulesetbot/ruleset.go):
id is platform assigned and optional, name is the reconciliation key,
enforcement and source are strings, plus rules, conditions, bypass actors. -/
structure Ruleset where
  id : Option Int
  name : String
  enforcement : String
  source : String
  rules : List RepositoryRule
  conditions : Option RulesetConditions
  bypassActors : List BypassActor
deriving DecidableEq, Repr

/-- Embeds GetID on the event ruleset (handler.go:136): a nil id reads as 0. -/
def Ruleset.getId (r : Ruleset) : Int :=
  r.id.getD 0

/-- Embeds the Changes payload of a ruleset event
(src/reporulesetbot/ruleset.go:14-21): the previous name and previous
enforcement, empty string meaning no reported change. -/
structure Changes where
  nameFrom : String
  enforcementFrom : String
deriving DecidableEq, Repr

/-- Embeds RulesetEvent (src/reporulesetbot/handler.go:32-41) restricted to
the fields the handlers read: organization login, action, sender login, the
observed ruleset, and the optional changes payload (a nil pointer in Go is
modeled as none). -/
structure RulesetEvent where
  organization : String
  action : String
  sender : String
  ruleset : Ruleset
  changes : Option Changes
deriving DecidableEq, Repr

/-- Embeds compareConditions (src/reporulesetbot/config.go:275-282):
reflect.DeepEqual on two possibly-nil condition pointers, true when both
are nil or both point to deep-equal values. -/
def compareConditions (rulesetConditions eventConditions : Option RulesetConditions) : Bool :=
  rulesetConditions == eventConditions

/-- Embeds compareRules (src/reporulesetbot/handler.go:234-253): false when
the total rule counts differ, otherwise true when every event rule type is
a member of the set of rule types of the ruleset file (the Go code builds a
map keyed by rule type, so only set membership is checked). -/
def compareRules (rulesetRules eventRules : List RepositoryRule) : Bool :=
  if rulesetRules.length != eventRules.length then
    false
  else
    let rulesetRuleTypes := rulesetRules.map RepositoryRule.type
    eventRules.all fun eventRule => rulesetRuleTypes.contains eventRule.type

/-- Embeds compareRulesets (src/reporulesetbot/handler.go:216-231), the
matches predicate of the spec: false when either operand is nil, otherwise
compareRules on the rule lists and compareConditions on the conditions.
The id fields are never consulted. -/
def compareRulesets (ruleset event : Option Ruleset) : Bool :=
  match ruleset, event with
  | some r, some e => compareRules r.rules e.rules && compareConditions r.conditions e.conditions
  | _, _ => false

/-- Embeds the standalone isManagedRuleset (src/reporulesetbot/ruleset.go:238-252):
managed when the event reports a rename whose previous name equals the desired
name, or when the desired name equals the observed name.  The Go code
dereferences event.Changes without a nil check, so a nil changes payload is
modeled as none (a panic in Go). -/
def isManagedRuleset (event : RulesetEvent) (ruleset : Ruleset) : Option Bool :=
  match event.changes with
  | none => none
  | some changes =>
    if changes.nameFrom != "" && ruleset.name == changes.nameFrom then
      some true
    else if ruleset.name != event.ruleset.name then
      some false
    else
      some true

/-- Embeds the method isManagedRuleset of RulesetHandler
(src/reporulesetbot/config.go:300-306), the variant the deleted-event path
calls (handler.go:174): plain name equality, the changes payload is not read. -/
def RulesetHandler.isManagedRuleset (event : RulesetEvent) (ruleset : Ruleset) : Bool :=
  if ruleset.name != event.ruleset.name then
    false
  else
    true

/-- Embeds isNameChanged (src/reporulesetbot/config.go:284-290): the changes
payload is non-nil and its previous name equals the desired name. -/
def isNameChanged (event : RulesetEvent) (ruleset : Ruleset) : Bool :=
  match event.changes with
  | some changes => changes.nameFrom == ruleset.name
  | none => false

/-- Embeds isEnforcementChanged (src/reporulesetbot/config.go:292-298): the
changes payload is non-nil and its previous enforcement equals the desired
enforcement. -/
def isEnforcementChanged (event : RulesetEvent) (ruleset : Ruleset) : Bool :=
  match event.changes with
  | some changes => changes.enforcementFrom == ruleset.enforcement
  | none => false

/-- A write call issued to the platform: an organization ruleset update keyed
by the observed ruleset id, or an organization ruleset create. -/
inductive WriteCall where
  | update (orgName : String) (rulesetId : Int) (body : Ruleset)
  | create (orgName : String) (body : Ruleset)
deriving DecidableEq, Repr

/-- Outcomes of the external collaborators a handler run depends on: JWT
client creation, the authenticated app lookup (its slug), installation
client creation, reading and processing the ruleset file, and the results
the platform returns for the update and create endpoints. -/
structure Env where
  jwtClientOk : Bool
  appSlug : Except String String
  installationClientOk : Bool
  loadRuleset : Except String Ruleset
  updateResult : Except String Unit
  createResult : Except String Unit

/-- Embeds editRuleset (src/reporulesetbot/utils.go:27-33): the update call
is always issued; a platform error comes back wrapped.  The issued call is
recorded alongside the result. -/
def editRuleset (env : Env) (orgName : String) (rulesetId : Int) (ruleset : Ruleset) :
    Except String Unit × List WriteCall :=
  match env.updateResult with
  | Except.error e =>
      (Except.error ("Failed to update repository ruleset: " ++ e),
       [WriteCall.update orgName rulesetId ruleset])
  | Except.ok _ => (Except.ok (), [WriteCall.update orgName rulesetId ruleset])

/-- Embeds createRuleset (src/reporulesetbot/utils.go:18-24): the create call
is always issued; a platform error comes back wrapped. -/
def createRuleset (env : Env) (orgName : String) (ruleset : Ruleset) :
    Except String Unit × List WriteCall :=
  match env.createResult with
  | Except.error e =>
      (Except.error ("Failed to deploy repository ruleset: " ++ e),
       [WriteCall.create orgName ruleset])
  | Except.ok _ => (Except.ok (), [WriteCall.create orgName ruleset])

/-- Embeds handleRulesetEdited (src/reporulesetbot/handler.go:110-157).
The control flow is translated exactly: after the collaborator steps, the
sender is compared to the app identity (app slug plus the bot suffix); the
first branch returns nil, and the following else-if branch covers every
other sender, issues the update through editRuleset while discarding its
error, and returns nil.  The trailing conditional on
isNameChanged, isEnforcementChanged and compareRulesets (handler.go:148-156)
is kept as the final else even though no Go execution can reach it. -/
def handleRulesetEdited (env : Env) (event : RulesetEvent) :
    Except String Unit × List WriteCall :=
  let orgName := event.organization
  if !env.jwtClientOk then
    (Except.error "Failed to create JWT client", [])
  else
    match env.appSlug with
    | Except.error _ => (Except.error "Failed to get authenticated app", [])
    | Except.ok slug =>
      let appName := slug ++ "[bot]"
      if !env.installationClientOk then
        (Except.error "Failed to create installation client", [])
      else
        match env.loadRuleset with
        | Except.error _ => (Except.error "Failed to read ruleset from file", [])
        | Except.ok ruleset =>
          let rulesetId := event.ruleset.getId
          if event.sender == appName then
            (Except.ok (), [])
          else if event.sender != appName then
            (Except.ok (), (editRuleset env orgName rulesetId ruleset).2)
          else
            if isNameChanged event ruleset || isEnforcementChanged event ruleset
                || !(compareRulesets (some ruleset) (some event.ruleset)) then
              (Except.ok (), (editRuleset env orgName rulesetId ruleset).2)
            else
              (Except.ok (), [])

/-- Embeds handleRulesetDeleted (src/reporulesetbot/handler.go:160-185):
create the installation client, read the ruleset file, stop successfully
when the ruleset is not managed (the name-equality method variant of
isManagedRuleset, handler.go:174), otherwise recreate the desired ruleset
and propagate any create error. -/
def handleRulesetDeleted (env : Env) (event : RulesetEvent) :
    Except String Unit × List WriteCall :=
  let orgName := event.organization
  if !env.installationClientOk then
    (Except.error "Failed to create installation client", [])
  else
    match env.loadRuleset with
    | Except.error _ => (Except.error "Failed to read rulesets from file", [])
    | Except.ok ruleset =>
      if !(RulesetHandler.isManagedRuleset event ruleset) then
        (Except.ok (), [])
      else
        createRuleset env orgName ruleset

/-- Embeds handleInstallation (src/reporulesetbot/handler.go:188-214): only
the created action acts; the installation client and the ruleset file load
can fail; the final create call is issued with its error discarded
(handler.go:211 ignores the return value of createRuleset). -/
def handleInstallation (env : Env) (action orgName : String) :
    Except String Unit × List WriteCall :=
  if action != "created" then
    (Except.ok (), [])
  else if !env.installationClientOk then
    (Except.error "Failed to create installation client", [])
  else
    match env.loadRuleset with
    | Except.error _ => (Except.error "Failed to read rulesets from file", [])
    | Except.ok ruleset => (Except.ok (), (createRuleset env orgName ruleset).2)

/-- Embeds shouldProcessBypassActor (src/reporulesetbot/ruleset.go:232-236):
process only actors whose id is nonzero and greater than five. -/
def shouldProcessBypassActor (bypassActor : BypassActor) : Bool :=
  bypassActor.actorId != 0 && decide (5 < bypassActor.actorId)

/-- Outcomes of the identity translations the bypass-actor loop can invoke:
the team translation (processTeamActor, src/reporulesetbot/ruleset.go:161-192)
and the repository-role translation (processRepoRoleActor, ruleset.go:195-230),
each yielding the rewritten actor or an error. -/
structure ActorEnv where
  translateTeam : BypassActor → Except String BypassActor
  translateRepoRole : BypassActor → Except String BypassActor

/-- Embeds the bypass-actor loop of processRuleset
(src/reporulesetbot/ruleset.go:91-108): each actor passing
shouldProcessBypassActor is dispatched on its actor type, Team and
RepositoryRole invoke a translation whose error aborts the loop,
Integration and unknown types pass through.  The second component records
every actor handed to a translation call, in order. -/
def processBypassActors (env : ActorEnv) :
    List BypassActor → Except String (List BypassActor) × List BypassActor
  | [] => (Except.ok [], [])
  | bypassActor :: rest =>
    if shouldProcessBypassActor bypassActor then
      match bypassActor.actorType with
      | "Team" =>
        match env.translateTeam bypassActor with
        | Except.error e => (Except.error e, [bypassActor])
        | Except.ok translated =>
          let tail := processBypassActors env rest
          (tail.1.map fun l => translated :: l, bypassActor :: tail.2)
      | "RepositoryRole" =>
        match env.translateRepoRole bypassActor with
        | Except.error e => (Except.error e, [bypassActor])
        | Except.ok translated =>
          let tail := processBypassActors env rest
          (tail.1.map fun l => translated :: l, bypassActor :: tail.2)
      | "Integration" =>
        let tail := processBypassActors env rest
        (tail.1.map fun l => bypassActor :: l, tail.2)
      | _ =>
        let tail := processBypassActors env rest
        (tail.1.map fun l => bypassActor :: l, tail.2)
    else
      let tail := processBypassActors env rest
      (tail.1.map fun l => bypassActor :: l, tail.2)

/-- Embeds github.CustomRepoRole restricted to the id and name fields read by
processRepoRoleActor. -/
structure CustomRepoRole where
  id : Int
  name : String
deriving DecidableEq, Repr

/-- Outcomes of the collaborators of processRepoRoleActor: creating the
source installation client, and listing the custom repository roles of the
source and of the target organization. -/
structure RepoRoleEnv where
  sourceClient : Except String Unit
  sourceRoles : Except String (List CustomRepoRole)
  targetRoles : Except String (List CustomRepoRole)

/-- Embeds the source-role scan of processRepoRoleActor
(src/reporulesetbot/ruleset.go:208-214): the loop assigns the name of every
role whose id matches, without breaking, so the last match wins and the
name stays empty when no role matches. -/
def lookupRoleName (roles : List CustomRepoRole) (actorId : Int) : String :=
  roles.foldl (fun acc repoRole => if repoRole.id == actorId then repoRole.name else acc) ""

/-- Embeds processRepoRoleActor (src/reporulesetbot/ruleset.go:195-230):
resolve the role name through the source organization, then scan the target
organization roles; the first role with that name rewrites the actor id and
returns nil, and when no target role matches the function falls through to
return nil with the actor untouched (ruleset.go:229). -/
def processRepoRoleActor (env : RepoRoleEnv) (actor : BypassActor) :
    Except String BypassActor :=
  let actorId := actor.actorId
  match env.sourceClient with
  | Except.error e => Except.error e
  | Except.ok _ =>
    match env.sourceRoles with
    | Except.error e => Except.error ("Failed to get custom repo roles for source org: " ++ e)
    | Except.ok sourceRoles =>
      let roleName := lookupRoleName sourceRoles actorId
      match env.targetRoles with
      | Except.error e => Except.error ("Failed to get custom repo roles for target org: " ++ e)
      | Except.ok targetRoles =>
        match targetRoles.find? (fun repoRole => repoRole.name == roleName) with
        | some repoRole => Except.ok { actor with actorId := repoRole.id }
        | none => Except.ok actor

/-- A minimal ruleset carrying only a name, for concrete instances. -/
def namedRuleset (n : String) : Ruleset :=
  ⟨none, n, "active", "", [], none, []⟩

/-- Concrete desired ruleset: no platform id yet, one rule, one condition set. -/
def c1Desired : Ruleset :=
  ⟨none, "managed-ruleset", "active", "source-org", [⟨"pull_request", none⟩],
   some ⟨["~ALL"], [], [], []⟩, []⟩

/-- The observed copy of c1Desired as the platform reports it: identical body
but carrying the platform-assigned id 42. -/
def c1Observed : Ruleset :=
  { c1Desired with id := some 42 }

/-- An edited event sent by the user alice for the observed ruleset, with a
changes payload reporting neither a rename nor an enforcement change. -/
def c1Event : RulesetEvent :=
  ⟨"acme", "edited", "alice", c1Observed, some ⟨"", ""⟩⟩

/-- An environment in which every collaborator succeeds and the ruleset file
loads as c1Desired. -/
def c1Env : Env :=
  ⟨true, Except.ok "repo-ruleset-bot", true, Except.ok c1Desired,
   Except.ok (), Except.ok ()⟩

/-- An environment identical to c1Env except that both platform write
endpoints fail. -/
def c9Env : Env :=
  ⟨true, Except.ok "repo-ruleset-bot", true, Except.ok c1Desired,
   Except.error "update failed", Except.error "create failed"⟩

/-- Desired ruleset for the witness of the multiset-equivalence claim. -/
def c2Desired : Ruleset :=
  ⟨none, "managed-ruleset", "active", "source-org",
   [⟨"pull_request", none⟩, ⟨"creation", none⟩],
   some ⟨["~ALL"], [], [], []⟩, []⟩

/-- Observed ruleset with the same rule-type multiset and conditions as
c2Desired but a different platform id. -/
def c2Observed : Ruleset :=
  ⟨some 7, "managed-ruleset", "active", "source-org",
   [⟨"pull_request", none⟩, ⟨"creation", none⟩],
   some ⟨["~ALL"], [], [], []⟩, []⟩

/-- Desired ruleset whose rule types are pull_request, pull_request, creation:
three rules over two types with per-type counts two and one. -/
def c3Desired : Ruleset :=
  ⟨none, "managed-ruleset", "active", "",
   [⟨"pull_request", none⟩, ⟨"pull_request", none⟩, ⟨"creation", none⟩], none, []⟩

/-- Observed ruleset whose rule types are pull_request, creation, creation:
the same total count and the same type set as c3Desired but different
per-type counts. -/
def c3Observed : Ruleset :=
  ⟨some 9, "managed-ruleset", "active", "",
   [⟨"pull_request", none⟩, ⟨"creation", none⟩, ⟨"creation", none⟩], none, []⟩

/-- Edited event reporting a rename from managed-ruleset to other-name. -/
def c4RenameEvent : RulesetEvent :=
  ⟨"test-org", "edited", "someone", namedRuleset "other-name",
   some ⟨"managed-ruleset", ""⟩⟩

/-- Edited event for the ruleset other-name with no reported rename. -/
def c4NoRenameEvent : RulesetEvent :=
  ⟨"test-org", "edited", "someone", namedRuleset "other-name", some ⟨"", ""⟩⟩

/-- The desired definition named managed-ruleset. -/
def c4Desired : Ruleset :=
  namedRuleset "managed-ruleset"

/-- A deleted event whose ruleset name matches the desired definition
c1Desired. -/
def c5Event : RulesetEvent :=
  ⟨"acme", "deleted", "alice", namedRuleset "managed-ruleset", none⟩

/-- An edited event whose sender is the reconciling app identity itself. -/
def c6Event : RulesetEvent :=
  ⟨"acme", "edited", "repo-ruleset-bot[bot]", c1Observed, some ⟨"", ""⟩⟩

/-- Translation outcomes for the bypass-actor witness: teams translate to id
101, repository roles to id 202. -/
def c7Env : ActorEnv :=
  ⟨fun a => Except.ok ⟨101, a.actorType⟩, fun a => Except.ok ⟨202, a.actorType⟩⟩

/-- A reserved team actor with id 1 followed by a translatable team actor
with id 10. -/
def c7Actors : List BypassActor :=
  [⟨1, "Team"⟩, ⟨10, "Team"⟩]

/-- The output of the bypass-actor loop on c7Actors under c7Env: the
reserved actor unchanged, the other translated to id 101. -/
def c7Out : List BypassActor :=
  [⟨1, "Team"⟩, ⟨101, "Team"⟩]

/-- Source organization custom roles: the role maintainer-plus with id 10. -/
def c8SourceRoles : List CustomRepoRole :=
  [⟨10, "maintainer-plus"⟩]

/-- Target organization custom roles: only other-role, so maintainer-plus is
absent. -/
def c8TargetRoles : List CustomRepoRole :=
  [⟨7, "other-role"⟩]

/-- A repo-role environment whose target organization lacks the role the
actor refers to. -/
def c8Env : RepoRoleEnv :=
  ⟨Except.ok (), Except.ok c8SourceRoles, Except.ok c8TargetRoles⟩

/-- A repository-role bypass actor whose id 10 names maintainer-plus in the
source organization. -/
def c8Actor : BypassActor :=
  ⟨10, "RepositoryRole"⟩

/-- C2: for every desired ruleset D and observed ruleset O whose rule-type
multisets coincide and whose conditions are deep-equal, the matches
predicate compareRulesets returns true; the id fields are unconstrained, so
differing platform-assigned ids cannot break equivalence. -/
theorem matchesTrueOfPermAndEqualConditions (d o : Ruleset)
    (hrules : (d.rules.map RepositoryRule.type : Multiset String)
      = (o.rules.map RepositoryRule.type : Multiset String))
    (hconds : d.conditions = o.conditions) :
    compareRulesets (some d) (some o) = true := by
  have hperm : (d.rules.map RepositoryRule.type).Perm (o.rules.map RepositoryRule.type) :=
    Multiset.coe_eq_coe.mp hrules
  have hlen : d.rules.length = o.rules.length := by
    simpa using hperm.length_eq
  have hne : (d.rules.length != o.rules.length) = false := by
    simp [hlen]
  have hrulesTrue : compareRules d.rules o.rules = true := by
    simp only [compareRules, hne, Bool.false_eq_true, if_false]
    rw [List.all_eq_true]
    intro r hr
    have hmemo : r.type ∈ o.rules.map RepositoryRule.type :=
      List.mem_map_of_mem RepositoryRule.type hr
    have hmemd : r.type ∈ d.rules.map RepositoryRule.type :=
      hperm.mem_iff.mpr hmemo
    simpa [List.contains] using hmemd
  have hcondsTrue : compareConditions d.conditions o.conditions = true := by
    simp [compareConditions, hconds]
  simp [compareRulesets, hrulesTrue, hcondsTrue]

/-- Witness for the multiset-equivalence claim at the concrete pair
c2Desired and c2Observed, which differ only in their platform ids. -/
theorem matchesTrueOfPermAndEqualConditionsWitness :
    compareRulesets (some c2Desired) (some c2Observed) = true ∧
    c2Desired.id ≠ c2Observed.id :=
  ⟨matchesTrueOfPermAndEqualConditions c2Desired c2Observed rfl rfl, by decide⟩

/-- C3 counterexample: the pair c3Desired and c3Observed has the same total
rule count and the same set of rule types but different per-type counts
(two pull_request rules against one), yet compareRulesets returns true, so
matches does not require per-type count equality. -/
theorem matchesTrueWithUnequalPerTypeCounts :
    compareRulesets (some c3Desired) (some c3Observed) = true ∧
    (c3Desired.rules.map RepositoryRule.type).count "pull_request" = 2 ∧
    (c3Observed.rules.map RepositoryRule.type).count "pull_request" = 1 := by
  decide

/-- C3 amended: compareRulesets returns true only if the total rule counts
agree and every rule type of the observed ruleset occurs among the desired
rule types; per-type multiplicities are not compared. -/
theorem matchesImpliesLengthAndTypeSubset (d o : Ruleset)
    (h : compareRulesets (some d) (some o) = true) :
    d.rules.length = o.rules.length ∧
    ∀ r ∈ o.rules, r.type ∈ d.rules.map RepositoryRule.type := by
  have h1 : compareRules d.rules o.rules = true := by
    have h2 := h
    simp only [compareRulesets, Bool.and_eq_true] at h2
    exact h2.1
  by_cases hl : d.rules.length = o.rules.length
  · refine ⟨hl, ?_⟩
    have hne : (d.rules.length != o.rules.length) = false := by simp [hl]
    simp only [compareRules, hne, Bool.false_eq_true, if_false] at h1
    rw [List.all_eq_true] at h1
    intro r hr
    have h3 := h1 r hr
    simpa [List.contains] using h3
  · exfalso
    have hne : (d.rules.length != o.rules.length) = true := by simp [hl]
    simp [compareRules, hne] at h1

/-- Witness for the amended containment claim at the concrete pair c3Desired
and c3Observed. -/
theorem matchesImpliesLengthAndTypeSubsetWitness :
    c3Desired.rules.length = c3Observed.rules.length :=
  (matchesImpliesLengthAndTypeSubset c3Desired c3Observed (by decide)).1

/-- C4: the standalone isManagedRuleset returns true on a rename reported
from the desired name even though the observed name differs, returns false
on an unmanaged name with no reported rename, and in general, for any event
carrying a changes payload, returns true exactly when the desired name
equals the observed name or the event reports a rename (nonempty previous
name) from the desired name. -/
theorem isManagedRulesetCharacterization :
    isManagedRuleset c4RenameEvent c4Desired = some true ∧
    isManagedRuleset c4NoRenameEvent c4Desired = some false ∧
    ∀ (org act snd : String) (obs : Ruleset) (changes : Changes) (ruleset : Ruleset),
      isManagedRuleset ⟨org, act, snd, obs, some changes⟩ ruleset
        = some ((ruleset.name == obs.name)
            || ((changes.nameFrom != "") && (ruleset.name == changes.nameFrom))) := by
  refine ⟨by decide, by decide, ?_⟩
  intro org act snd obs changes ruleset
  simp only [isManagedRuleset]
  cases h1 : (changes.nameFrom != "") && (ruleset.name == changes.nameFrom) with
  | true => simp [h1]
  | false =>
    cases h2 : ruleset.name == obs.name with
    | true => simp [h1, h2, bne]
    | false => simp [h1, h2, bne]

/-- C10: the matches predicate compareRulesets reports a mismatch, never a
crash and never equivalence, when either operand is nil. -/
theorem matchesFalseOnAbsentOperand (x : Option Ruleset) :
    compareRulesets none x = false ∧ compareRulesets x none = false := by
  cases x <;> exact ⟨rfl, rfl⟩

/-- C1 evaluation: on the edited event c1Event the observed ruleset is
managed, reports no name or enforcement change, and already matches the
desired definition, yet handleRulesetEdited still issues an update call:
the update is unconditional for any sender other than the app, because the
else-if branch at handler.go:142-146 returns before the intended condition
at handler.go:148-153 can run. -/
theorem editedEventUpdateIssuedDespiteMatch :
    RulesetHandler.isManagedRuleset c1Event c1Desired = true ∧
    isManagedRuleset c1Event c1Desired = some true ∧
    isNameChanged c1Event c1Desired = false ∧
    isEnforcementChanged c1Event c1Desired = false ∧
    compareRulesets (some c1Desired) (some c1Observed) = true ∧
    handleRulesetEdited c1Env c1Event
      = (Except.ok (), [WriteCall.update "acme" 42 c1Desired]) := by
  exact ⟨rfl, rfl, rfl, rfl, by decide, rfl⟩

/-- C9 evaluation: in the environment c9Env both platform write endpoints
fail, and the issued calls do carry those errors, yet handleRulesetEdited
and handleInstallation both report success: the error returned by
editRuleset is discarded at handler.go:144 and the error returned by
createRuleset is discarded at handler.go:211. -/
theorem writeErrorsDiscardedInEditedAndInstallPaths :
    (editRuleset c9Env "acme" 42 c1Desired).1
      = Except.error "Failed to update repository ruleset: update failed" ∧
    handleRulesetEdited c9Env c1Event
      = (Except.ok (), [WriteCall.update "acme" 42 c1Desired]) ∧
    (createRuleset c9Env "acme" c1Desired).1
      = Except.error "Failed to deploy repository ruleset: create failed" ∧
    handleInstallation c9Env "created" "acme"
      = (Except.ok (), [WriteCall.create "acme" c1Desired]) := by
  exact ⟨rfl, rfl, rfl, rfl⟩

/-- C5: on a deleted event, when the installation client and the ruleset
file load succeed, the handler issues exactly one create call carrying the
desired ruleset body if the deleted name matches the desired definition,
and issues no write and returns success otherwise. -/
theorem deletedEventRecreatesManagedRuleset (env : Env) (event : RulesetEvent) (d : Ruleset)
    (hclient : env.installationClientOk = true)
    (hload : env.loadRuleset = Except.ok d) :
    (d.name = event.ruleset.name →
      (handleRulesetDeleted env event).2 = [WriteCall.create event.organization d]) ∧
    (d.name ≠ event.ruleset.name →
      handleRulesetDeleted env event = (Except.ok (), [])) := by
  obtain ⟨jwt, slug, inst, load, upd, cre⟩ := env
  simp only at hclient hload
  subst hclient
  subst hload
  constructor
  · intro hname
    have hmanaged : RulesetHandler.isManagedRuleset event d = true := by
      simp [RulesetHandler.isManagedRuleset, hname]
    cases cre <;> simp [handleRulesetDeleted, createRuleset, hmanaged]
  · intro hname
    have hmanaged : RulesetHandler.isManagedRuleset event d = false := by
      simp [RulesetHandler.isManagedRuleset, bne_iff_ne, hname]
    simp [handleRulesetDeleted, hmanaged]

/-- Witness for the deleted-event claim: with every collaborator succeeding
and the desired definition c1Desired, the deleted event c5Event (whose name
matches) leads to exactly the one create call with the desired body. -/
theorem deletedEventRecreatesManagedRulesetWitness :
    (handleRulesetDeleted c1Env c5Event).2 = [WriteCall.create "acme" c1Desired] :=
  (deletedEventRecreatesManagedRuleset c1Env c5Event c1Desired rfl rfl).1 rfl

/-- C6: on an edited event whose sender login is the app identity (the app
slug with the bot suffix), and with the collaborator steps succeeding, the
handler issues no write call at all and returns success. -/
theorem selfEditedEventIsNoOp (env : Env) (event : RulesetEvent) (slug : String) (d : Ruleset)
    (hjwt : env.jwtClientOk = true)
    (happ : env.appSlug = Except.ok slug)
    (hclient : env.installationClientOk = true)
    (hload : env.loadRuleset = Except.ok d)
    (hsender : event.sender = slug ++ "[bot]") :
    handleRulesetEdited env event = (Except.ok (), []) := by
  obtain ⟨jwt, slugE, inst, load, upd, cre⟩ := env
  simp only at hjwt happ hclient hload
  subst hjwt
  subst happ
  subst hclient
  subst hload
  simp [handleRulesetEdited, hsender]

/-- Witness for the self-edit no-op claim at the concrete event c6Event sent
by repo-ruleset-bot with the bot suffix. -/
theorem selfEditedEventIsNoOpWitness :
    handleRulesetEdited c1Env c6Event = (Except.ok (), []) :=
  selfEditedEventIsNoOp c1Env c6Event "repo-ruleset-bot" c1Desired rfl rfl rfl rfl rfl

/-- C8 counterexample: with the role maintainer-plus absent from the target
organization role list, processRepoRoleActor returns success with the actor
untouched instead of failing: the role miss is a silent skip, not a hard
error. -/
theorem missingRepoRoleSilentlySkipped :
    (c8TargetRoles.all fun r => r.name != lookupRoleName c8SourceRoles c8Actor.actorId) = true ∧
    processRepoRoleActor c8Env c8Actor = Except.ok c8Actor := by
  exact ⟨by decide, rfl⟩

/-- C8 amended: when the collaborator lookups succeed and no role of the
target organization carries the name resolved through the source
organization, processRepoRoleActor returns success and leaves the actor,
and in particular its actor id, unchanged. -/
theorem missingRepoRoleLeavesActorUnchanged (env : RepoRoleEnv) (actor : BypassActor)
    (src tgt : List CustomRepoRole)
    (hclient : env.sourceClient = Except.ok ())
    (hsrc : env.sourceRoles = Except.ok src)
    (htgt : env.targetRoles = Except.ok tgt)
    (habsent : ∀ r ∈ tgt, r.name ≠ lookupRoleName src actor.actorId) :
    processRepoRoleActor env actor = Except.ok actor := by
  obtain ⟨sc, sr, tr⟩ := env
  simp only at hclient hsrc htgt
  subst hclient
  subst hsrc
  subst htgt
  have hfind : tgt.find? (fun repoRole => repoRole.name == lookupRoleName src actor.actorId)
      = none := by
    rw [List.find?_eq_none]
    intro r hr
    simp [habsent r hr]
  simp [processRepoRoleActor, hfind]

/-- Witness for the amended repo-role claim at the concrete environment
c8Env and actor c8Actor. -/
theorem missingRepoRoleLeavesActorUnchangedWitness :
    processRepoRoleActor c8Env c8Actor = Except.ok c8Actor :=
  missingRepoRoleLeavesActorUnchanged c8Env c8Actor c8SourceRoles c8TargetRoles rfl rfl rfl
    (by decide)

/-- Every actor recorded in the translation trace of the bypass-actor loop
passed the shouldProcessBypassActor gate. -/
theorem processBypassActors_trace (env : ActorEnv) (actors : List BypassActor) :
    ∀ a ∈ (processBypassActors env actors).2, shouldProcessBypassActor a = true := by
  induction actors with
  | nil =>
    intro a ha
    simp [processBypassActors] at ha
  | cons b rest ih =>
    intro a ha
    by_cases hsp : shouldProcessBypassActor b = true
    · simp only [processBypassActors, hsp, if_true] at ha
      split at ha
      · cases ht : env.translateTeam b with
        | error e =>
          rw [ht] at ha
          simp at ha
          subst ha
          exact hsp
        | ok t =>
          rw [ht] at ha
          simp at ha
          rcases ha with ha | ha
          · subst ha; exact hsp
          · exact ih a ha
      · cases ht : env.translateRepoRole b with
        | error e =>
          rw [ht] at ha
          simp at ha
          subst ha
          exact hsp
        | ok t =>
          rw [ht] at ha
          simp at ha
          rcases ha with ha | ha
          · subst ha; exact hsp
          · exact ih a ha
      · exact ih a (by simpa using ha)
      · exact ih a (by simpa using ha)
    · simp only [processBypassActors] at ha
      rw [if_neg] at ha
      · exact ih a (by simpa using ha)
      · simpa using hsp

/-- When the bypass-actor loop succeeds, its output is pointwise related to
its input: any input actor with id at most five comes out unchanged. -/
theorem processBypassActors_out (env : ActorEnv) (actors : List BypassActor) :
    ∀ out, (processBypassActors env actors).1 = Except.ok out →
      List.Forall₂ (fun inA outA => inA.actorId ≤ 5 → outA = inA) actors out := by
  induction actors with
  | nil =>
    intro out hout
    simp [processBypassActors] at hout
    subst hout
    exact List.Forall₂.nil
  | cons b rest ih =>
    intro out hout
    by_cases hsp : shouldProcessBypassActor b = true
    · have h5 : 5 < b.actorId := by
        have h := hsp
        simp only [shouldProcessBypassActor, Bool.and_eq_true, decide_eq_true_eq] at h
        exact h.2
      have hhead : ∀ c : BypassActor, b.actorId ≤ 5 → c = b :=
        fun c hle => absurd h5 (not_lt.mpr hle)
      simp only [processBypassActors, hsp, if_true] at hout
      split at hout
      · cases ht : env.translateTeam b with
        | error e =>
          rw [ht] at hout
          simp at hout
        | ok t =>
          rw [ht] at hout
          cases hrest : (processBypassActors env rest).1 with
          | error e => rw [hrest] at hout; simp [Except.map] at hout
          | ok outRest =>
            rw [hrest] at hout
            simp [Except.map] at hout
            subst hout
            exact List.Forall₂.cons (hhead t) (ih outRest hrest)
      · cases ht : env.translateRepoRole b with
        | error e =>
          rw [ht] at hout
          simp at hout
        | ok t =>
          rw [ht] at hout
          cases hrest : (processBypassActors env rest).1 with
          | error e => rw [hrest] at hout; simp [Except.map] at hout
          | ok outRest =>
            rw [hrest] at hout
            simp [Except.map] at hout
            subst hout
            exact List.Forall₂.cons (hhead t) (ih outRest hrest)
      · cases hrest : (processBypassActors env rest).1 with
        | error e => rw [hrest] at hout; simp [Except.map] at hout
        | ok outRest =>
          rw [hrest] at hout
          simp [Except.map] at hout
          subst hout
          exact List.Forall₂.cons (fun _ => rfl) (ih outRest hrest)
      · cases hrest : (processBypassActors env rest).1 with
        | error e => rw [hrest] at hout; simp [Except.map] at hout
        | ok outRest =>
          rw [hrest] at hout
          simp [Except.map] at hout
          subst hout
          exact List.Forall₂.cons (fun _ => rfl) (ih outRest hrest)
    · simp only [processBypassActors] at hout
      rw [if_neg] at hout
      swap
      · simpa using hsp
      · cases hrest : (processBypassActors env rest).1 with
        | error e => rw [hrest] at hout; simp [Except.map] at hout
        | ok outRest =>
          rw [hrest] at hout
          simp [Except.map] at hout
          subst hout
          exact List.Forall₂.cons (fun _ => rfl) (ih outRest hrest)

/-- C7: for any translation outcomes and any bypass-actor list, every actor
handed to identity translation has id strictly greater than five, so the
reserved ids one to five and the zero id are never translated; and whenever
the loop succeeds, every input actor with id at most five appears in the
output unchanged. -/
theorem reservedBypassActorsNeverTranslated (env : ActorEnv) (actors : List BypassActor) :
    (∀ a ∈ (processBypassActors env actors).2, 5 < a.actorId) ∧
    (∀ out, (processBypassActors env actors).1 = Except.ok out →
      List.Forall₂ (fun inA outA => inA.actorId ≤ 5 → outA = inA) actors out) := by
  constructor
  · intro a ha
    have h := processBypassActors_trace env actors a ha
    simp only [shouldProcessBypassActor, Bool.and_eq_true, decide_eq_true_eq] at h
    exact h.2
  · exact processBypassActors_out env actors

/-- Witness for the reserved-actor claim: on the concrete list c7Actors the
translation trace holds only the actor with id 10, and the successful
output relates pointwise to the input, forcing the reserved actor with id 1
through unchanged. -/
theorem reservedBypassActorsNeverTranslatedWitness :
    5 < (BypassActor.mk 10 "Team").actorId ∧
    List.Forall₂ (fun inA outA => inA.actorId ≤ 5 → outA = inA) c7Actors c7Out := by
  constructor
  · exact (reservedBypassActorsNeverTranslated c7Env c7Actors).1 ⟨10, "Team"⟩ (by decide)
  · exact (reservedBypassActorsNeverTranslated c7Env c7Actors).2 c7Out rfl

end RepoRulesetBot
